import Mathlib

/-!
Verification of the class-assignment CSP formulation in `csp_problem.py`.

The development shallowly embeds the constraint-model builder
(`solve_class_assignment`, lines 42-152), the objective, and the
post-solve verification pass (lines 187-296) of the source file.
Students are the post-normalisation records (columns stripped, missing
values defaulted as in lines 20-26 of the source: missing relations
become id 0, missing flags become false, the missing prior-year label
becomes the string constant `unknownS`, a missing club stays missing and
is kept as `Option.none`).  A solver valuation assigns a Boolean to every
(student, class) decision variable, a natural number to every per-group
per-class overage variable, and values to the min/max score variables;
`Satisfies` collects every constraint the builder places on the model,
so "an assignment produced from a satisfying model" is an assignment
extracted (first true class variable, as in lines 164-196) from a
valuation with `Satisfies`.
-/

/-- String constants used by the source: the prior-year label meaning
missing (`fillna('unknown')`, line 26). -/
def unknownS : String := "unknown"

/-- The empty string (falsy in the `if ly and ly != 'unknown'` guard,
lines 98-99). -/
def emptyS : String := ""

/-- The label the verification pass substitutes for a missing club
(`fillna('none')`, line 277). -/
def noneS : String := "none"

/-- What Python's `str` makes of a missing (NaN) club value when the
verification pass resolves group membership (`str(...)` on line 280). -/
def nanS : String := "nan"

/-- A concrete prior-year class label used in test scenarios. -/
def strA : String := "A"

/-- A concrete club name used in test scenarios. -/
def alphaS : String := "alpha"

/-- One normalised student record (one row of the input table after the
preprocessing in lines 14-26 of the source).  `good` and `bad` are the
positive/negative relation references (`좋은관계` / `나쁜관계`, defaulted
to 0), `nonAttend` is the non-attendance flag (`비등교`), `sport` the
sport-preference flag (`운동선호`), `male` records `sex == 'boy'`,
`lastYear` the prior-year class label (`24년 학급`), `club` the club
affiliation with `none` for a missing value. -/
structure Student where
  id : Nat
  score : Nat
  male : Bool
  leadership : Bool
  piano : Bool
  nonAttend : Bool
  sport : Bool
  club : Option String
  lastYear : String
  good : Nat
  bad : Nat

/-- Number of classes (`NUM_CLASSES = 6`, line 35). -/
abbrev NUM_CLASSES : Nat := 6

/-- The configured class capacities (`CLASS_SIZES`, line 36). -/
def CLASS_SIZES : List Nat := [33, 33, 33, 33, 34, 34]

/-- Capacity of one class (`CLASS_SIZES[c_id]`, line 59). -/
def classSize (c : Fin NUM_CLASSES) : Nat := CLASS_SIZES.getD c.val 0

/-- The score-fairness weight (`W_SCORE = 1`, line 149; defined by the
source but not referenced afterwards). -/
def W_SCORE : Int := 1

/-- The overlap-penalty weight (`W_LY = 100`, line 150; defined by the
source but not referenced afterwards). -/
def W_LY : Int := 100

/-- `student_ids` (line 30): the id column in row order, duplicates kept. -/
def studentIds (R : List Student) : List Nat := R.map (fun s => s.id)

/-- `student_map[i]` (line 31): a Python dict comprehension keeps the
last record carrying a given id, so we search the reversed row list. -/
def lookup (R : List Student) (i : Nat) : Option Student :=
  R.reverse.find? (fun s => s.id == i)

/-- `student_map[i]['나쁜관계']` — negative-relation reference of id `i`. -/
def badOf (R : List Student) (i : Nat) : Nat :=
  ((lookup R i).map (fun s => s.bad)).getD 0

/-- `student_map[i]['좋은관계']` — positive-relation reference of id `i`. -/
def goodOf (R : List Student) (i : Nat) : Nat :=
  ((lookup R i).map (fun s => s.good)).getD 0

/-- `student_map[i]['비등교'] == 'yes'`. -/
def nonAttendOf (R : List Student) (i : Nat) : Bool :=
  ((lookup R i).map (fun s => s.nonAttend)).getD false

/-- `student_map[i]['Piano'] == 'yes'`. -/
def pianoOf (R : List Student) (i : Nat) : Bool :=
  ((lookup R i).map (fun s => s.piano)).getD false

/-- `student_map[i]['운동선호'] == 'yes'`. -/
def sportOf (R : List Student) (i : Nat) : Bool :=
  ((lookup R i).map (fun s => s.sport)).getD false

/-- `student_map[i]['Leadership'] == 'yes'`. -/
def leaderOf (R : List Student) (i : Nat) : Bool :=
  ((lookup R i).map (fun s => s.leadership)).getD false

/-- `student_map[i]['sex'] == 'boy'`. -/
def maleOf (R : List Student) (i : Nat) : Bool :=
  ((lookup R i).map (fun s => s.male)).getD false

/-- `student_map[i]['score']`. -/
def scoreOf (R : List Student) (i : Nat) : Nat :=
  ((lookup R i).map (fun s => s.score)).getD 0

/-- `student_map[i]['클럽']` — the raw club cell, `none` when missing. -/
def clubOf (R : List Student) (i : Nat) : Option String :=
  ((lookup R i).map (fun s => s.club)).getD none

/-- The pre-model integrity gate of the source: the only check performed
before model construction is `assert NUM_STUDENTS == sum(CLASS_SIZES)`
(line 40); nothing inspects the ids for duplicates. -/
def capacityCheck (R : List Student) : Bool :=
  R.length == CLASS_SIZES.sum

/-- The ordered pairs for which constraint 1A (lines 62-67) emits a
per-class separation clause: one pair per student whose negative-relation
reference is a key of `student_map`; a self reference is not excluded. -/
def sepPairs (R : List Student) : List (Nat × Nat) :=
  (studentIds R).filterMap (fun i =>
    if badOf R i ∈ studentIds R then some (i, badOf R i) else none)

/-- `math.ceil(t / NUM_CLASSES)` for a natural `t` (lines 83, 126, 137). -/
def ceil6 (t : Nat) : Nat := (t + 5) / NUM_CLASSES

/-- Students carrying the Piano flag (`distribute_evenly('Piano')`). -/
def pianoGroup (R : List Student) : List Nat :=
  (studentIds R).filter (fun i => pianoOf R i)

/-- Students carrying the non-attendance flag (`distribute_evenly('비등교')`). -/
def nonAttendGroup (R : List Student) : List Nat :=
  (studentIds R).filter (fun i => nonAttendOf R i)

/-- Students carrying the sport-preference flag (`distribute_evenly('운동선호')`). -/
def sportGroup (R : List Student) : List Nat :=
  (studentIds R).filter (fun i => sportOf R i)

/-- `leadership_students` (line 91). -/
def leaderGroup (R : List Student) : List Nat :=
  (studentIds R).filter (fun i => leaderOf R i)

/-- `male_students` (line 123). -/
def maleGroup (R : List Student) : List Nat :=
  (studentIds R).filter (fun i => maleOf R i)

/-- `df['클럽'].unique()` restricted to actual (non-missing) values: the
NaN entry of `unique()` matches no student in the builder because
`NaN == NaN` is false, so only real values generate constraints
(lines 131-134). -/
def clubVals (R : List Student) : List String :=
  (R.filterMap (fun s => s.club)).dedup

/-- `students_in_club` for one club value (line 133). -/
def clubGroup (R : List Student) (val : String) : List Nat :=
  (studentIds R).filter (fun i => decide (clubOf R i = some val))

/-- The distinct prior-year class labels that form penalty groups: the
guard `if ly and ly != 'unknown'` (line 99) drops the empty string and
the `unknown` default. -/
def lyLabels (R : List Student) : List String :=
  (R.filterMap (fun s =>
    if s.lastYear ≠ emptyS ∧ s.lastYear ≠ unknownS then some s.lastYear
    else none)).dedup

/-- `last_year_classes[L]` — ids of the students whose prior-year label
is `L` (lines 96-100; built from the records, in row order). -/
def lyGroup (R : List Student) (L : String) : List Nat :=
  (R.filter (fun s => decide (s.lastYear = L))).map (fun s => s.id)

/-- A solver valuation: a truth value for every `assign[s, c]` Boolean
variable, a natural value for every `ly_over_{g}_{c}` overage variable
(indexed here by the group label), and values for the `min_score` /
`max_score` variables. -/
structure CpVal where
  assign : Nat → Fin NUM_CLASSES → Bool
  over : String → Fin NUM_CLASSES → Nat
  minScore : Nat
  maxScore : Nat

/-- `class_scores[c]` (line 142): the score sum of class `c` under a
valuation. -/
def classScore (R : List Student) (v : CpVal) (c : Fin NUM_CLASSES) : Nat :=
  ((studentIds R).map (fun i => if v.assign i c then scoreOf R i else 0)).sum

/-- The even-distribution policy of `distribute_evenly` (lines 78-86) and
of the sex/club constraints: every class count of the group lies in
`[T / NUM_CLASSES, ceil(T / NUM_CLASSES)]`. -/
abbrev distOk (G : List Nat) (v : CpVal) : Prop :=
  ∀ c : Fin NUM_CLASSES,
    G.length / NUM_CLASSES ≤ G.countP (fun i => v.assign i c) ∧
    G.countP (fun i => v.assign i c) ≤ ceil6 G.length

/-- All constraints the builder places on the model, in source order:
exactly-one (line 55), exact capacity (line 59), negative-relation
separation (lines 62-67), non-attendance co-placement (lines 70-76),
even distribution of the three flags (lines 118-120), leadership
presence (lines 91-93), the overage-variable bounds and lower-bound
constraint of rule 8 (lines 108-115), sex balance (lines 122-128), club
balance (lines 130-139), and the min/max score aggregation (lines
143-146).  A valuation satisfies the built model iff it satisfies this
conjunction. -/
abbrev Satisfies (R : List Student) (v : CpVal) : Prop :=
  (∀ i ∈ studentIds R,
    (List.finRange NUM_CLASSES).countP (fun c => v.assign i c) = 1) ∧
  (∀ c : Fin NUM_CLASSES,
    (studentIds R).countP (fun i => v.assign i c) = classSize c) ∧
  (∀ p ∈ sepPairs R, ∀ c : Fin NUM_CLASSES,
    ¬(v.assign p.1 c = true ∧ v.assign p.2 c = true)) ∧
  (∀ i ∈ studentIds R, nonAttendOf R i = true → goodOf R i ∈ studentIds R →
    ∀ c : Fin NUM_CLASSES, v.assign i c = true → v.assign (goodOf R i) c = true) ∧
  distOk (pianoGroup R) v ∧
  distOk (nonAttendGroup R) v ∧
  distOk (sportGroup R) v ∧
  (∀ c : Fin NUM_CLASSES, 1 ≤ (leaderGroup R).countP (fun i => v.assign i c)) ∧
  distOk (maleGroup R) v ∧
  (∀ val ∈ clubVals R, clubGroup R val ≠ [] → distOk (clubGroup R val) v) ∧
  (∀ L ∈ lyLabels R, ∀ c : Fin NUM_CLASSES,
    v.over L c ≤ (lyGroup R L).length ∧
    ((lyGroup R L).countP (fun i => v.assign i c) : Int) - 1 ≤ (v.over L c : Int)) ∧
  (∀ c : Fin NUM_CLASSES, v.minScore ≤ classScore R v c) ∧
  (∃ c : Fin NUM_CLASSES, v.minScore = classScore R v c) ∧
  (∀ c : Fin NUM_CLASSES, classScore R v c ≤ v.maxScore) ∧
  (∃ c : Fin NUM_CLASSES, v.maxScore = classScore R v c)

/-- Extraction of the assignment from a solved model (lines 164-169 and
191-196): the first class whose Boolean variable is true, `none` if no
variable is true. -/
def assignedOf (v : CpVal) (i : Nat) : Option (Fin NUM_CLASSES) :=
  (List.finRange NUM_CLASSES).find? (fun c => v.assign i c)

/-- The objective expression the source actually passes to `Minimize`
(line 152): the score range alone; the `ly_penalties` overage variables
and the weights `W_SCORE`, `W_LY` do not appear in it. -/
def codeObjective (v : CpVal) : Int :=
  (v.maxScore : Int) - (v.minScore : Int)

/-- The total prior-year overlap penalty carried by the model's overage
variables: the sum of the `ly_penalties` list (lines 103-115). -/
def modelLyPenaltyTotal (R : List Student) (v : CpVal) : Nat :=
  ((lyLabels R).map (fun L =>
    ((List.finRange NUM_CLASSES).map (fun c => v.over L c)).sum)).sum

/-- The objective as the specification states it: `W_SCORE * (max_sum -
min_sum) + W_LY * total_ly_penalty`.  Written from the spec text for
comparison with `codeObjective`. -/
def specObjective (R : List Student) (v : CpVal) : Int :=
  W_SCORE * ((v.maxScore : Int) - (v.minScore : Int)) +
    W_LY * (modelLyPenaltyTotal R v : Int)

/-- Verification rule 8 (lines 249-265): the overlap penalty recomputed
from the extracted assignment as the sum over every prior-year group and
class of `max(0, count_in_class - 1)` (natural subtraction truncates at
zero, matching `max(cnt - LY_CAP, 0)` with `LY_CAP = 1`). -/
def verifyLyPenalty (R : List Student) (asg : Nat → Option (Fin NUM_CLASSES)) : Nat :=
  ((lyLabels R).map (fun L =>
    ((List.finRange NUM_CLASSES).map (fun c =>
      (lyGroup R L).countP (fun i => decide (asg i = some c)) - 1)).sum)).sum

/-- The club labels the verification pass iterates over (line 277):
`df['클럽'].fillna('none').astype(str).str.strip().unique()` — one label
per row, a missing club becoming the label `'none'`. -/
def labels9 (R : List Student) : List String :=
  (R.map (fun s => (s.club).getD noneS)).dedup

/-- How the verification pass stringifies a raw club cell when resolving
membership (line 280): `str` of a NaN float is the string `'nan'`. -/
def clubStr (c : Option String) : String :=
  match c with
  | some v => v
  | none => nanS

/-- `club_ids` for one verification label (line 280). -/
def members9 (R : List Student) (L : String) : List Nat :=
  (studentIds R).filter (fun i => clubStr (clubOf R i) == L)

/-- Verification rule 9 (lines 276-295) finds at least one violation:
some label with a nonempty member list has a class count outside
`[total // NUM_CLASSES, ceil(total / NUM_CLASSES)]`. -/
abbrev clubViolation (R : List Student) (asg : Nat → Option (Fin NUM_CLASSES)) : Prop :=
  ∃ L ∈ labels9 R, members9 R L ≠ [] ∧ ∃ c : Fin NUM_CLASSES,
    ¬((members9 R L).length / NUM_CLASSES ≤
        (members9 R L).countP (fun i => decide (asg i = some c)) ∧
      (members9 R L).countP (fun i => decide (asg i = some c)) ≤
        ceil6 (members9 R L).length)

/-- The club check as the claim describes it: membership of the `'none'`
group resolved through the same `fillna('none')` labelling, so that
missing-club students belong to the `'none'` group.  Written from the
claim text for comparison with `clubViolation`. -/
def membersSpec (R : List Student) (L : String) : List Nat :=
  (studentIds R).filter (fun i => (clubOf R i).getD noneS == L)

/-- Violation predicate of the claim-described club check (see
`membersSpec`). -/
abbrev specClubViolation (R : List Student) (asg : Nat → Option (Fin NUM_CLASSES)) : Prop :=
  ∃ L ∈ labels9 R, membersSpec R L ≠ [] ∧ ∃ c : Fin NUM_CLASSES,
    ¬((membersSpec R L).length / NUM_CLASSES ≤
        (membersSpec R L).countP (fun i => decide (asg i = some c)) ∧
      (membersSpec R L).countP (fun i => decide (asg i = some c)) ≤
        ceil6 (membersSpec R L).length)

/-- The even-distribution bounds restated over an extracted assignment:
every class count of the group lies in
`[T / NUM_CLASSES, ceil(T / NUM_CLASSES)]` where `T` is the group size. -/
abbrev distOkAsg (G : List Nat) (asg : Nat → Option (Fin NUM_CLASSES)) : Prop :=
  ∀ c : Fin NUM_CLASSES,
    G.length / NUM_CLASSES ≤ G.countP (fun i => decide (asg i = some c)) ∧
    G.countP (fun i => decide (asg i = some c)) ≤ ceil6 G.length

/-- A plain student record for the concrete scenarios: id `i`, score 0,
male, leadership, no flags, no club, prior-year label unknown, no
relations. -/
def baseStudent (i : Nat) : Student :=
  { id := i, score := 0, male := true, leadership := true, piano := false,
    nonAttend := false, sport := false, club := none, lastYear := unknownS,
    good := 0, bad := 0 }

/-- Adjustments giving the main 200-student scenario its features:
student 1 dislikes student 34 and shares a club with them, student 2 is
a non-attendee whose good relation is student 3, students 5 and 34 share
prior-year class `A`. -/
def tweak (s : Student) : Student :=
  if s.id = 1 then { s with bad := 34, club := some alphaS }
  else if s.id = 2 then { s with nonAttend := true, good := 3 }
  else if s.id = 5 then { s with lastYear := strA }
  else if s.id = 34 then { s with lastYear := strA, club := some alphaS }
  else s

/-- The main concrete registry: 200 students with ids 1..200. -/
def W : List Student :=
  (List.range 200).map (fun k => tweak (baseStudent (k + 1)))

/-- The class each student of scenario `W` is put in: ids are cut into
consecutive blocks of sizes 33, 33, 33, 33, 34, 34. -/
def classOf (i : Nat) : Nat :=
  if i ≤ 33 then 0 else if i ≤ 66 then 1 else if i ≤ 99 then 2
  else if i ≤ 132 then 3 else if i ≤ 166 then 4 else 5

/-- The concrete satisfying valuation for scenario `W`: block assignment,
all scores 0, and the overage variable of group `A` in class 5 set to 1
— legal, because the model only bounds each overage from below by
`count - 1` and from above by the group size. -/
def vW : CpVal :=
  { assign := fun i c => classOf i == c.val,
    over := fun L c => if L = strA ∧ c.val = 5 then 1 else 0,
    minScore := 0, maxScore := 0 }

/-- Registry with a duplicated id: two records carry id 1, and the total
record count still matches the capacity sum. -/
def D2 : List Student :=
  baseStudent 1 :: (List.range 199).map (fun k => baseStudent (k + 1))

/-- One-student registry whose single student's negative-relation
reference is their own id. -/
def S1 : List Student := [{ baseStudent 1 with bad := 1 }]

/-- An arbitrary valuation (everything false / zero), used to exhibit
unsatisfiability of the model built from `S1`. -/
def u1 : CpVal :=
  { assign := fun _ _ => false, over := fun _ _ => 0,
    minScore := 0, maxScore := 0 }

/-- Three-student registry for the club-verification scenario: students
1 and 2 have a missing club, student 3 is in club `alpha`. -/
def D10 : List Student :=
  [baseStudent 1, baseStudent 2,
   { baseStudent 3 with club := some alphaS }]

/-- A concrete extracted assignment for `D10` that puts both
missing-club students into class 0. -/
def asg10 (i : Nat) : Option (Fin NUM_CLASSES) :=
  if i ≤ 2 then some 0 else some 1

set_option maxRecDepth 1000000

lemma countP_ext {α : Type} (p q : α → Bool) (l : List α)
    (h : ∀ a ∈ l, p a = q a) : l.countP p = l.countP q := by
  induction l with
  | nil => rfl
  | cons x xs ih =>
    rw [List.countP_cons, List.countP_cons, h x (by simp),
      ih (fun a ha => h a (by simp [ha]))]

lemma countP_one_unique {α : Type} (p : α → Bool) (l : List α)
    (h : l.countP p = 1) :
    ∃ a, l.find? p = some a ∧ p a = true ∧ ∀ b ∈ l, p b = true → b = a := by
  induction l with
  | nil => simp [List.countP_nil] at h
  | cons x xs ih =>
    by_cases hp : p x = true
    · refine ⟨x, List.find?_cons_of_pos xs hp, hp, ?_⟩
      rw [List.countP_cons_of_pos p xs hp] at h
      have hxs : xs.countP p = 0 := by omega
      intro b hb hpb
      rcases List.mem_cons.mp hb with h1 | hbxs
      · exact h1
      · exact absurd hpb (by simpa using (List.countP_eq_zero.mp hxs) b hbxs)
    · rw [List.countP_cons_of_neg p xs hp] at h
      obtain ⟨a, hfind, hpa, huniq⟩ := ih h
      refine ⟨a, ?_, hpa, ?_⟩
      · rw [List.find?_cons_of_neg xs (by simpa using hp)]
        exact hfind
      · intro b hb hpb
        rcases List.mem_cons.mp hb with h1 | hbxs
        · exact absurd (h1 ▸ hpb) hp
        · exact huniq b hbxs hpb

lemma exactly_one_class {R : List Student} {v : CpVal} (hs : Satisfies R v)
    {i : Nat} (hi : i ∈ studentIds R) :
    ∃ c : Fin NUM_CLASSES, assignedOf v i = some c ∧
      ∀ d : Fin NUM_CLASSES, (v.assign i d = true ↔ d = c) := by
  obtain ⟨a, hfind, hpa, huniq⟩ :=
    countP_one_unique (fun c => v.assign i c) (List.finRange NUM_CLASSES)
      (hs.1 i hi)
  exact ⟨a, hfind, fun d =>
    ⟨fun hd => huniq d (List.mem_finRange d) hd, fun hd => hd ▸ hpa⟩⟩

lemma assignedOf_iff {R : List Student} {v : CpVal} (hs : Satisfies R v)
    {i : Nat} (hi : i ∈ studentIds R) (c : Fin NUM_CLASSES) :
    assignedOf v i = some c ↔ v.assign i c = true := by
  obtain ⟨a, hfind, hiff⟩ := exactly_one_class hs hi
  constructor
  · intro h
    have hac : a = c := by
      rw [hfind] at h
      exact Option.some_inj.mp h
    exact (hiff c).mpr hac.symm
  · intro h
    rw [(hiff c).mp h]
    exact hfind

lemma countP_assigned {R : List Student} {v : CpVal} (hs : Satisfies R v)
    (G : List Nat) (hG : ∀ j ∈ G, j ∈ studentIds R) (c : Fin NUM_CLASSES) :
    G.countP (fun i => decide (assignedOf v i = some c)) =
      G.countP (fun i => v.assign i c) := by
  refine countP_ext _ _ G (fun j hj => ?_)
  have hiff := assignedOf_iff hs (hG j hj) c
  cases hvb : v.assign j c with
  | true => simp [hiff.mpr hvb]
  | false =>
    have hne : ¬(assignedOf v j = some c) := fun hcon => by
      rw [hiff.mp hcon] at hvb
      exact Bool.noConfusion hvb
    simp [hne]

lemma satW : Satisfies W vW := by decide

lemma selfBad_unsat (R : List Student) (s : Nat) (hsid : s ∈ studentIds R)
    (hb : badOf R s = s) (v : CpVal) : ¬ Satisfies R v := by
  intro hsat
  have hmem : badOf R s ∈ studentIds R := by
    rw [hb]
    exact hsid
  have hpair : (s, badOf R s) ∈ sepPairs R :=
    List.mem_filterMap.mpr ⟨s, hsid, by rw [if_pos hmem]⟩
  have hzero : ∀ c : Fin NUM_CLASSES, v.assign s c = false := by
    intro c
    have hsep := hsat.2.2.1 (s, badOf R s) hpair c
    simp only [hb] at hsep
    cases hvc : v.assign s c with
    | false => rfl
    | true => exact absurd ⟨hvc, hvc⟩ hsep
  have h0 : (List.finRange NUM_CLASSES).countP (fun c => v.assign s c) = 0 :=
    List.countP_eq_zero.mpr (fun c _ => by simp [hzero c])
  have h1 := hsat.1 s hsid
  omega

/-- C2 counterexample: a registry in which id 1 occurs twice, while the
record count still equals the capacity sum, passes the only pre-model
integrity gate of the source — construction does not fail on a
duplicated id. -/
theorem c2_duplicate_id_passes :
    ¬ (studentIds D2).Nodup ∧ capacityCheck D2 = true :=
  ⟨by decide, by decide⟩

/-- C2 (amended): the gate run before model construction depends only on
the record count — it passes exactly when that count equals the sum of
the configured class capacities, whether or not some id is duplicated;
and it is a bare assertion, there is no `DataIntegrityError` class in
the code. -/
theorem c2_capacity_only_gate (R : List Student)
    (hdup : ¬ (studentIds R).Nodup) :
    capacityCheck R = true ↔ R.length = CLASS_SIZES.sum := by
  simp [capacityCheck]

/-- Witness for `c2_capacity_only_gate` at the duplicate-id registry. -/
theorem c2_capacity_only_gate_w : capacityCheck D2 = true :=
  (c2_capacity_only_gate D2 (by decide)).mpr (by decide)

/-- C4: for every valuation satisfying the built model, every student of
the registry is assigned a unique class: the extracted assignment yields
some class `c`, and the student's class variable at `d` is true exactly
when `d = c`. -/
theorem c4_exactly_one_class (R : List Student) (v : CpVal)
    (hs : Satisfies R v) (i : Nat) (hi : i ∈ studentIds R) :
    ∃ c : Fin NUM_CLASSES, assignedOf v i = some c ∧
      ∀ d : Fin NUM_CLASSES, (v.assign i d = true ↔ d = c) :=
  exactly_one_class hs hi

/-- Witness for `c4_exactly_one_class`: student 1 of the concrete
200-student scenario. -/
theorem c4_exactly_one_class_w :
    ∃ c : Fin NUM_CLASSES, assignedOf vW 1 = some c ∧
      ∀ d : Fin NUM_CLASSES, (vW.assign 1 d = true ↔ d = c) :=
  c4_exactly_one_class W vW satW 1 (by decide)

/-- C5: for every valuation satisfying the built model and every class,
the number of students whose extracted assignment is that class equals
the class's configured capacity exactly. -/
theorem c5_capacity_exact (R : List Student) (v : CpVal)
    (hs : Satisfies R v) (c : Fin NUM_CLASSES) :
    (studentIds R).countP (fun i => decide (assignedOf v i = some c)) =
      classSize c := by
  rw [countP_assigned hs (studentIds R) (fun j hj => hj) c]
  exact hs.2.1 c

/-- Witness for `c5_capacity_exact`: class 0 of the concrete scenario
holds exactly 33 students. -/
theorem c5_capacity_exact_w :
    (studentIds W).countP (fun i => decide (assignedOf vW i = some 0)) =
      classSize 0 :=
  c5_capacity_exact W vW satW 0

/-- C6 counterexample: in the one-student registry whose student's
negative-relation field is their own id, the builder does emit a
separation pair for the self reference — the claim's "a self reference
imposes no constraint" fails — and the resulting model admits no
satisfying valuation. -/
theorem c6_self_pair_generated :
    sepPairs S1 = [(1, 1)] ∧ ¬ Satisfies S1 u1 :=
  ⟨by decide, selfBad_unsat S1 1 (by decide) (by decide) u1⟩

/-- C6 (amended): for every valuation satisfying the built model and
every student whose negative-relation reference resolves to a different
known student, the two students occupy different classes; an absent or
dangling reference imposes no constraint, but a self reference does
impose the per-class separation clause against the student themself,
which makes the model unsatisfiable. -/
theorem c6_negative_separation (R : List Student) (v : CpVal)
    (hs : Satisfies R v) (i : Nat) (hi : i ∈ studentIds R)
    (hb : badOf R i ∈ studentIds R) (hne : badOf R i ≠ i)
    (c : Fin NUM_CLASSES) (hc : assignedOf v i = some c) :
    assignedOf v (badOf R i) ≠ some c := by
  intro hcon
  have hpair : (i, badOf R i) ∈ sepPairs R :=
    List.mem_filterMap.mpr ⟨i, hi, by rw [if_pos hb]⟩
  exact hs.2.2.1 (i, badOf R i) hpair c
    ⟨(assignedOf_iff hs hi c).mp hc, (assignedOf_iff hs hb c).mp hcon⟩

/-- Witness for `c6_negative_separation`: student 1 of the concrete
scenario dislikes student 34; student 1 sits in class 0, so student 34
does not. -/
theorem c6_negative_separation_w : assignedOf vW (badOf W 1) ≠ some 0 :=
  c6_negative_separation W vW satW 1 (by decide) (by decide) (by decide) 0
    (by decide)

/-- C7: for every valuation satisfying the built model, every student
flagged non-attendance whose positive-relation reference is a known
student is co-placed with the referenced student: whatever class the
flagged student is assigned, the referenced student is assigned the
same class. -/
theorem c7_nonattendance_coplacement (R : List Student) (v : CpVal)
    (hs : Satisfies R v) (i : Nat) (hi : i ∈ studentIds R)
    (hatt : nonAttendOf R i = true) (hg : goodOf R i ∈ studentIds R)
    (c : Fin NUM_CLASSES) (hc : assignedOf v i = some c) :
    assignedOf v (goodOf R i) = some c := by
  have himp := hs.2.2.2.1 i hi hatt hg c ((assignedOf_iff hs hi c).mp hc)
  exact (assignedOf_iff hs hg c).mpr himp

/-- Witness for `c7_nonattendance_coplacement`: student 2 of the
concrete scenario is a non-attendee with good relation 3 and sits in
class 0, so student 3 sits in class 0 as well. -/
theorem c7_nonattendance_coplacement_w :
    assignedOf vW (goodOf W 2) = some 0 :=
  c7_nonattendance_coplacement W vW satW 2 (by decide) (by decide)
    (by decide) 0 (by decide)

/-- C9: for every registry in which some student's negative-relation
reference equals that student's own id, the built model is
unsatisfiable: the self separation clause forces all that student's
class variables false, contradicting the exactly-one constraint. -/
theorem c9_self_reference_unsat (R : List Student) (s : Nat)
    (hsid : s ∈ studentIds R) (hb : badOf R s = s) (v : CpVal) :
    ¬ Satisfies R v :=
  selfBad_unsat R s hsid hb v

/-- Witness for `c9_self_reference_unsat`: the one-student self-relation
registry admits no satisfying valuation; exhibited on the all-false
valuation. -/
theorem c9_self_reference_unsat_w : ¬ Satisfies S1 u1 :=
  c9_self_reference_unsat S1 1 (by decide) (by decide) u1

lemma distOk_to_asg {R : List Student} {v : CpVal} (hs : Satisfies R v)
    {G : List Nat} (hG : ∀ j ∈ G, j ∈ studentIds R) (hd : distOk G v) :
    distOkAsg G (assignedOf v) := by
  intro c
  rw [countP_assigned hs G hG c]
  exact hd c

/-- C8: for every valuation satisfying the built model, each tracked
flag group (Piano, non-attendance, sport preference), the male group,
and every club-value group has a per-class count of the extracted
assignment within `[T / NUM_CLASSES, ceil(T / NUM_CLASSES)]`, `T` being
the group's total size. -/
theorem c8_even_distribution (R : List Student) (v : CpVal)
    (hs : Satisfies R v) :
    distOkAsg (pianoGroup R) (assignedOf v) ∧
    distOkAsg (nonAttendGroup R) (assignedOf v) ∧
    distOkAsg (sportGroup R) (assignedOf v) ∧
    distOkAsg (maleGroup R) (assignedOf v) ∧
    ∀ val ∈ clubVals R, distOkAsg (clubGroup R val) (assignedOf v) := by
  refine ⟨distOk_to_asg hs (fun j hj => (List.mem_filter.mp hj).1)
      hs.2.2.2.2.1,
    distOk_to_asg hs (fun j hj => (List.mem_filter.mp hj).1)
      hs.2.2.2.2.2.1,
    distOk_to_asg hs (fun j hj => (List.mem_filter.mp hj).1)
      hs.2.2.2.2.2.2.1,
    distOk_to_asg hs (fun j hj => (List.mem_filter.mp hj).1)
      hs.2.2.2.2.2.2.2.2.1, ?_⟩
  intro val hval
  by_cases hemp : clubGroup R val = []
  · intro c
    rw [hemp]
    simp [ceil6]
  · exact distOk_to_asg hs (fun j hj => (List.mem_filter.mp hj).1)
      (hs.2.2.2.2.2.2.2.2.2.1 val hval hemp)

/-- Witness for `c8_even_distribution`: the lower bound for the male
group in class 0 of the concrete scenario. -/
theorem c8_even_distribution_w :
    (maleGroup W).length / NUM_CLASSES ≤
      (maleGroup W).countP (fun i => decide (assignedOf vW i = some 0)) :=
  ((c8_even_distribution W vW satW).2.2.2.1 0).1

/-- C1: evaluation at a failing input.  The concrete valuation `vW`
satisfies the built model and carries a total overage of 1, so the
spec's objective `W_SCORE * (max - min) + W_LY * total_ly_penalty`
evaluates to 100 there — but the expression the source passes to
`Minimize` is the bare score range, which evaluates to 0.  The objective
the solver is asked to minimize does not equal the claimed formula. -/
theorem c1_objective_evaluation :
    Satisfies W vW ∧ codeObjective vW = 0 ∧ specObjective W vW = 100 ∧
      codeObjective vW ≠ specObjective W vW :=
  ⟨satW, by decide, by decide, by decide⟩

/-- C3: evaluation at a failing input.  In the concrete satisfying
valuation `vW` the model's overage variables carry a total penalty of 1
(the group-A overage variable in class 5 is set to 1, which the model
permits because each overage variable is only bounded below by
`count - 1` and above by the group size, and the objective exerts no
downward pressure on it), while the verification pass recomputes the
penalty from the extracted assignment as 0. -/
theorem c3_penalty_cross_check_fails :
    Satisfies W vW ∧ modelLyPenaltyTotal W vW = 1 ∧
      verifyLyPenalty W (assignedOf vW) = 0 :=
  ⟨satW, by decide, by decide⟩

/-- C10 counterexample: in the three-student registry `D10` (students 1
and 2 with a missing club, student 3 in a real club) under the concrete
assignment that clusters both missing-club students in class 0, the
check described by the claim (membership of the `'none'` group resolved
by the fill-in label) does report a violation, but the code's check
reports none: its `'none'` member list is empty, because membership is
resolved by stringifying the raw cell, which yields `'nan'`, not
`'none'`. -/
theorem c10_missing_club_unchecked :
    members9 D10 noneS = [] ∧ specClubViolation D10 asg10 ∧
      ¬ clubViolation D10 asg10 :=
  ⟨by decide, by decide, by decide⟩

/-- C10 (amended): the builder constrains only actual club values, and
the verification pass also never checks missing-club students — its
`'none'` label matches no student (a missing cell stringifies to
`'nan'`), so, provided no student carries the literal club string
`'nan'`, the verification club check reports no violation on any
assignment extracted from a satisfying valuation. -/
theorem c10_verification_no_spurious (R : List Student) (v : CpVal)
    (hno : ∀ s ∈ R, s.club ≠ some nanS) (hs : Satisfies R v) :
    ¬ clubViolation R (assignedOf v) := by
  rintro ⟨L, hL, hmem, c, hviol⟩
  have hLne : L ≠ nanS := by
    obtain ⟨s, hsR, hsL⟩ := List.mem_map.mp (List.mem_dedup.mp hL)
    cases hclub : s.club with
    | none =>
      rw [hclub] at hsL
      simp only [Option.getD_none] at hsL
      rw [← hsL]
      decide
    | some w =>
      rw [hclub] at hsL
      simp only [Option.getD_some] at hsL
      intro hcon
      exact hno s hsR (by rw [hclub, hsL, hcon])
  have hMG : members9 R L = clubGroup R L := by
    refine List.filter_congr (fun j hj => ?_)
    cases hcj : clubOf R j with
    | none =>
      simp only [hcj, clubStr]
      rw [decide_eq_false (by simp)]
      exact beq_eq_false_iff_ne.mpr (Ne.symm hLne)
    | some w =>
      simp only [hcj, clubStr]
      by_cases hwL : w = L
      · subst hwL
        simp
      · rw [decide_eq_false (by simp [hwL]), beq_eq_false_iff_ne.mpr hwL]
  obtain ⟨j, hj⟩ := List.exists_mem_of_ne_nil _ hmem
  have hjgrp : j ∈ clubGroup R L := hMG ▸ hj
  have hjclub : clubOf R j = some L := by
    have h2 := (List.mem_filter.mp hjgrp).2
    simpa using h2
  have hLval : L ∈ clubVals R := by
    cases hlk : lookup R j with
    | none =>
      rw [clubOf, hlk] at hjclub
      simp at hjclub
    | some r =>
      have hrclub : r.club = some L := by
        rw [clubOf, hlk] at hjclub
        simpa using hjclub
      have hrR : r ∈ R := List.mem_reverse.mp (List.mem_of_find?_eq_some hlk)
      exact List.mem_dedup.mpr (List.mem_filterMap.mpr ⟨r, hrR, by rw [hrclub]⟩)
  have hbound := distOk_to_asg hs (fun a ha => (List.mem_filter.mp ha).1)
    (hs.2.2.2.2.2.2.2.2.2.1 L hLval (List.ne_nil_of_mem hjgrp)) c
  rw [hMG] at hviol
  exact hviol hbound

/-- Witness for `c10_verification_no_spurious`: the concrete 200-student
scenario, in which most students have a missing club and two share club
alpha, produces no verification club violation. -/
theorem c10_verification_no_spurious_w :
    ¬ clubViolation W (assignedOf vW) :=
  c10_verification_no_spurious W vW (by decide) satW
